import Mathlib

/-!
Verification development for the kkday-lang-key-finder browser extension.

The JavaScript sources are shallowly embedded: JS runtime values are the
inductive `JSValue` (plain objects become ordered association lists, which
models own-property enumeration order), JS numbers are modelled as `ℚ`
(every comparison performed by the embedded code is between short decimal
constants, where rational and IEEE-754 semantics agree), fallible code
returns `Except String` (a `.error` is an uncaught JS exception), and the
string operations used by the code (`toLowerCase`, `trim`, `includes`,
`startsWith`, whitespace collapsing) are re-implemented over `List Char`
so that they evaluate inside the kernel.  JS `Array.prototype.sort` with
a consistent comparator is modelled by a stable insertion sort
(`List.insertionSort`), which agrees with the engine's stable sort on
every consistent comparator.
-/

/-- Model of the JS runtime values the extension's core manipulates.
`obj` carries its own enumerable properties in enumeration order;
`func` stands for any function value (its body is never inspected). -/
inductive JSValue : Type
  | str (s : String)
  | num (q : ℚ)
  | bool (b : Bool)
  | null
  | func
  | arr (items : List JSValue)
  | obj (props : List (String × JSValue))

/-- JS truthiness of a value: `null`, `false`, `0`, and `""` are falsy;
objects, arrays and functions are always truthy. -/
def jsTruthy : JSValue → Bool
  | .str s => !(s = "")
  | .num q => !(q = 0)
  | .bool b => b
  | .null => false
  | .func => true
  | .arr _ => true
  | .obj _ => true

/-- JS truthiness of the result of a property access (`undefined` is falsy). -/
def jsTruthyO : Option JSValue → Bool
  | none => false
  | some v => jsTruthy v

/-- Property access `v[name]` on values the embedded code reads properties
from after a truthiness guard: objects look the name up, every other value
yields `undefined` (`none`). -/
def getProp (v : JSValue) (name : String) : Option JSValue :=
  match v with
  | .obj props => props.lookup name
  | _ => none

/-- Characters treated as whitespace by the JS `\s` class and `trim`
(ASCII part; the sources only ever meet ASCII whitespace). -/
def isJsWs (c : Char) : Bool :=
  c = ' ' || c = '\t' || c = '\n' || c = '\r' || c = Char.ofNat 11 || c = Char.ofNat 12

/-- JS `String.prototype.toLowerCase` (ASCII case mapping). -/
def jsToLower (s : String) : String := ⟨s.data.map Char.toLower⟩

/-- JS `String.prototype.trim` on char lists: drop whitespace at both ends. -/
def trimList (l : List Char) : List Char :=
  ((l.dropWhile isJsWs).reverse.dropWhile isJsWs).reverse

/-- JS `String.prototype.trim`. -/
def jsTrim (s : String) : String := ⟨trimList s.data⟩

/-- JS `hay.startsWith(pat)` on char lists: `pat` is a leading run of `hay`. -/
def startsList : List Char → List Char → Bool
  | _, [] => true
  | [], _ :: _ => false
  | a :: as, b :: bs => a = b && startsList as bs

/-- JS `hay.includes(pat)` on char lists: `pat` occurs contiguously in `hay`. -/
def incList (hay pat : List Char) : Bool :=
  startsList hay pat ||
    (match hay with
     | [] => false
     | _ :: t => incList t pat)

/-- JS `s.includes(sub)`. -/
def jsIncludes (s sub : String) : Bool := incList s.data sub.data

/-- JS `s.startsWith(sub)`. -/
def jsStartsWith (s sub : String) : Bool := startsList s.data sub.data

/-- One step of `query.replace(/\s+/g, ' ')`: the flag records whether the
previous character belonged to a whitespace run. -/
def collapseGo : List Char → Bool → List Char
  | [], _ => []
  | c :: t, inRun =>
    if isJsWs c then
      if inRun then collapseGo t true else ' ' :: collapseGo t true
    else c :: collapseGo t false

/-- JS `query.replace(/\s+/g, ' ')`: collapse whitespace runs to one space. -/
def collapseWs (s : String) : String := ⟨collapseGo s.data false⟩

/-- Flat key/value record as pushed by `flattenTranslationData`
(`src/src/background/service-worker.js`): a plain `{key, val}` object. -/
structure KVRecord : Type where
  key : String
  val : String
deriving DecidableEq

/-- Dotted-path key construction from `flattenTranslationData`:
`currentPrefix ? currentPrefix + '.' + key : key`. -/
def joinKey (curPre key : String) : String :=
  if curPre = "" then key else curPre ++ "." ++ key

/-- Values `flattenTranslationData` skips entirely: neither a string leaf
nor a plain object to recurse into. -/
def skipsValue : JSValue → Bool
  | .str _ => false
  | .obj _ => false
  | _ => true

/-- The inner `flatten` closure of `flattenTranslationData`
(`service-worker.js` lines 645-660): walk the own enumerable properties in
order; emit a record for every string value, recurse into plain
(non-array, non-null) objects, skip everything else.  There is no depth
bound in the source. -/
def flattenProps : List (String × JSValue) → String → List KVRecord
  | [], _ => []
  | (key, v) :: t, curPre =>
    let fullKey := joinKey curPre key
    (match v with
     | .str s => [⟨fullKey, s⟩]
     | .obj inner => flattenProps inner fullKey
     | _ => []) ++ flattenProps t curPre
termination_by props _ => sizeOf props
decreasing_by all_goals (simp_wf <;> omega)

/-- JS `for...in` over an array enumerates its index strings. -/
def indexedProps (items : List JSValue) : List (String × JSValue) :=
  (items.enum.map fun (i, v) => (toString i, v))

/-- Embeds `flattenTranslationData(data, prefix)` (`service-worker.js` lines
642-667): run the walk when `data` is a non-null object (JS `typeof`
counts arrays as objects, and `for...in` then enumerates their indices),
otherwise return the empty list. -/
def flattenTranslationData (data : JSValue) (curPre : String := "") : List KVRecord :=
  match data with
  | .obj props => flattenProps props curPre
  | .arr items => flattenProps (indexedProps items) curPre
  | _ => []

/-- Check for the JS `null` value (used by `sanitizeData`'s filters). -/
def isNullV : JSValue → Bool
  | .null => true
  | _ => false

mutual

/-- Embeds `sanitizeData(obj, maxDepth = 10, currentDepth = 0)` from
`src/src/content/page-script.js` lines 100-151: return `null` beyond the
depth bound, pass primitives (and functions, whose `typeof` is not
`'object'`) through, deep-copy arrays dropping elements that sanitize to
`null`, and rebuild objects keeping string/number/boolean properties,
recursing into object/array properties and dropping the ones that
sanitize to `null`; `null` and function properties are dropped.  (DOM
node guards are not modelled: no `JSValue` is a DOM node.) -/
def sanitizeData (v : JSValue) (maxDepth currentDepth : Nat) : JSValue :=
  if currentDepth > maxDepth then .null
  else
    match v with
    | .arr items => .arr ((sanitizeItems items maxDepth (currentDepth + 1)).filter
        (fun x => !isNullV x))
    | .obj props => .obj (sanitizeProps props maxDepth currentDepth)
    | x => x
termination_by sizeOf v

/-- The `obj.map(item => sanitizeData(item, maxDepth, currentDepth + 1))`
part of `sanitizeData`'s array branch. -/
def sanitizeItems (items : List JSValue) (maxDepth currentDepth : Nat) : List JSValue :=
  match items with
  | [] => []
  | it :: t => sanitizeData it maxDepth currentDepth :: sanitizeItems t maxDepth currentDepth
termination_by sizeOf items

/-- The property loop of `sanitizeData`'s object branch. -/
def sanitizeProps (props : List (String × JSValue)) (maxDepth currentDepth : Nat) :
    List (String × JSValue) :=
  match props with
  | [] => []
  | (_, .func) :: t => sanitizeProps t maxDepth currentDepth
  | (_, .null) :: t => sanitizeProps t maxDepth currentDepth
  | (key, .obj inner) :: t =>
    let sanitized := sanitizeData (.obj inner) maxDepth (currentDepth + 1)
    let rest := sanitizeProps t maxDepth currentDepth
    if isNullV sanitized then rest else (key, sanitized) :: rest
  | (key, .arr items) :: t =>
    let sanitized := sanitizeData (.arr items) maxDepth (currentDepth + 1)
    let rest := sanitizeProps t maxDepth currentDepth
    if isNullV sanitized then rest else (key, sanitized) :: rest
  | (key, value) :: t => (key, value) :: sanitizeProps t maxDepth currentDepth
termination_by sizeOf props

end

/-- Nested test object: `nestObj n` is `n` plain objects around a string
leaf, each under the key `"a"` (`nestObj 0` is the leaf itself). -/
def nestObj : Nat → JSValue
  | 0 => .str "x"
  | n + 1 => .obj [("a", nestObj n)]

/-- Truncated shape: `truncObj n` is `n + 1` nested objects under the key
`"a"` with an empty object innermost. -/
def truncObj : Nat → JSValue
  | 0 => .obj []
  | n + 1 => .obj [("a", truncObj n)]

/-- Rational 0.2 (exact value of the confidence threshold literal). -/
def q02 : ℚ := ⟨1, 5, by decide, by decide⟩

/-- Rational 0.4. -/
def q04 : ℚ := ⟨2, 5, by decide, by decide⟩

/-- Rational 0.6. -/
def q06 : ℚ := ⟨3, 5, by decide, by decide⟩

/-- Rational 0.8. -/
def q08 : ℚ := ⟨4, 5, by decide, by decide⟩

/-- A `{item, score}` result object built by the popup's in-line search
(`src/src/popup/popup.js`, `initializeSearch`). -/
structure PopupResult : Type where
  item : KVRecord
  score : ℚ
deriving DecidableEq

/-- The popup's `query.toLowerCase().trim()` normalization. -/
def normalizeQuery (query : String) : String := jsTrim (jsToLower query)

/-- The per-candidate body of the popup search's `map` callback
(`popup.js` lines 303-327): `null` when neither field contains the
normalized query, otherwise the tiered score — `1.0` exact, `0.8`
starts-with, `0.6` both contain, `0.4` one contains (the trailing `0`
mirrors the dead `let score = 0` initialisation). -/
def scoreItem (nq : String) (item : KVRecord) : Option PopupResult :=
  let keyMatch := jsIncludes (jsToLower item.key) nq
  let valMatch := jsIncludes (jsToLower item.val) nq
  if !keyMatch && !valMatch then none
  else
    some ⟨item,
      if jsToLower item.key == nq || jsToLower item.val == nq then 1
      else if jsStartsWith (jsToLower item.key) nq || jsStartsWith (jsToLower item.val) nq then q08
      else if keyMatch && valMatch then q06
      else if keyMatch || valMatch then q04
      else 0⟩

/-- Ordering used by the popup's `.sort((a, b) => b.score - a.score)`:
descending by score. -/
def popupDesc (a b : PopupResult) : Prop := b.score ≤ a.score

instance : DecidableRel popupDesc := fun a b =>
  inferInstanceAs (Decidable (b.score ≤ a.score))

/-- The popup's `searchService.search(query, options)` (`popup.js` lines
293-333): empty result on a falsy query, otherwise score each candidate,
drop the `null`s, stable-sort descending by score and truncate to
`options.limit || 20` (so an explicit `0` also falls back to `20`).
The always-present candidate list models `this.translations`. -/
def popupSearch (translations : List KVRecord) (query : String)
    (limitOpt : Option ℕ) : List PopupResult :=
  if query = "" then []
  else
    let nq := normalizeQuery query
    let limit := match limitOpt with
      | some n => if n = 0 then 20 else n
      | none => 20
    (((translations.filterMap (scoreItem nq)).insertionSort popupDesc).take limit)

/-- The `TranslationEntry` model class (`src/src/models/TranslationEntry.js`):
an already-validated key/value pair. -/
structure TranslationEntry : Type where
  key : String
  val : String
deriving DecidableEq

/-- Embeds `new TranslationEntry(key, val)` including `validate()`: the key must
be a truthy string, the value a string (empty allowed).  The arguments are
the raw property-access results. -/
def mkTranslationEntry (key val : Option JSValue) : Except String TranslationEntry :=
  match key with
  | some (.str k) =>
    if k = "" then .error "TranslationEntry key must be a non-empty string"
    else
      match val with
      | some (.str s) => .ok ⟨k, s⟩
      | _ => .error "TranslationEntry value must be a string"
  | _ => .error "TranslationEntry key must be a non-empty string"

/-- Embeds `TranslationEntry.fromObject(obj)`: reject non-objects (JS `typeof`
counts arrays as objects and `null` is falsy), then construct from the
`key`/`val` properties. -/
def TranslationEntry.fromObject (v : JSValue) : Except String TranslationEntry :=
  match v with
  | .obj _ => mkTranslationEntry (getProp v "key") (getProp v "val")
  | .arr _ => mkTranslationEntry (getProp v "key") (getProp v "val")
  | _ => .error "Invalid object provided"

/-- The `SearchResult` model class (`src/src/models/SearchResult.js`):
a validated item/score/refIndex triple (both numbers kept as `ℚ`). -/
structure SearchResult : Type where
  item : TranslationEntry
  score : ℚ
  refIndex : ℚ
deriving DecidableEq

/-- Embeds `new SearchResult(item, score, refIndex)` including `validate()`:
score must lie in `[0, 1]`, refIndex must be a non-negative integer.
(The `typeof`/null checks cannot fire here: both fields are numbers.) -/
def mkSearchResult (item : TranslationEntry) (score refIndex : ℚ) :
    Except String SearchResult :=
  if score < 0 ∨ 1 < score then .error "SearchResult score must be between 0 and 1"
  else if refIndex < 0 ∨ refIndex.den ≠ 1 then
    .error "SearchResult refIndex must be a non-negative integer"
  else .ok ⟨item, score, refIndex⟩

/-- Extract a JS number from a property-access result (`typeof x === 'number'`). -/
def numOf : Option JSValue → Option ℚ
  | some (.num q) => some q
  | _ => none

/-- Embeds `SearchResult.fromFuseResult(fuseResult)` (`SearchResult.js` lines
57-76): reject non-objects and objects without a truthy `item`, build the
`TranslationEntry` from `item` (which may itself throw), then default a
missing or non-numeric `score`/`refIndex` to `0` and validate. -/
def SearchResult.fromFuseResult (v : JSValue) : Except String SearchResult :=
  match v with
  | .obj _ =>
    (match getProp v "item" with
     | some itemV =>
       if jsTruthy itemV = false then .error "Fuse result must contain an item property"
       else do
         let entry ← TranslationEntry.fromObject itemV
         mkSearchResult entry ((numOf (getProp v "score")).getD 0)
           ((numOf (getProp v "refIndex")).getD 0)
     | none => .error "Fuse result must contain an item property")
  | .arr _ => .error "Fuse result must contain an item property"
  | _ => .error "Invalid Fuse result provided to SearchResult.fromFuseResult"

/-- Embeds `getConfidenceLevel()` (`SearchResult.js` lines 163-177) as a function
of the score. -/
def SearchResult.getConfidenceLevel (score : ℚ) : String :=
  if score = 0 then "perfect"
  else if score < q02 then "high"
  else if score < q04 then "medium"
  else if score < q06 then "low"
  else "very_low"

/-- Embeds `SearchResult.sortByScore(results)` (`SearchResult.js` lines 184-190):
a stable sort of a copy, ascending by score. -/
def SearchResult.sortByScore (results : List SearchResult) : List SearchResult :=
  results.insertionSort (fun a b => a.score ≤ b.score)

/-- JS `Math.round` (round half toward positive infinity). -/
def jsRound (q : ℚ) : ℤ := ⌊q + (1 / 2 : ℚ)⌋

/-- Embeds `getRelevancePercentage()`: `Math.round((1 - score) * 100)`. -/
def SearchResult.relevancePercent (score : ℚ) : ℤ := jsRound ((1 - score) * 100)

/-- Embeds `SearchResult.fromFuseResults(fuseResults)` (`SearchResult.js` lines
83-98): keep the truthy objects with a truthy `item`, then convert each
(a conversion failure propagates like the JS exception). -/
def SearchResult.fromFuseResults (rs : List JSValue) : Except String (List SearchResult) :=
  (rs.filter fun r =>
    (match r with
     | .obj _ => true
     | .arr _ => true
     | _ => false) && jsTruthyO (getProp r "item")).mapM SearchResult.fromFuseResult

/-- Embeds `preprocessQuery(query)` of `SearchService`: trim, collapse internal
whitespace runs, lowercase. -/
def preprocessQuery (query : String) : String := jsToLower (collapseWs (jsTrim query))

/-- Embeds `SearchService.search(query, options)` (`SearchService.js` lines
89-122).  The Fuse.js engine is an external library, abstracted as the
oracle `fuse` (the limit/threshold options are absorbed by the oracle);
the non-string-query and uninitialised-instance throws cannot fire here.
A falsy (empty) query throws; errors inside the `try` are rethrown with
the `Search failed:` prefix; a truthy `options.minRelevance` post-filters
by relevance percentage. -/
def SearchService.search (fuse : String → List JSValue) (query : String)
    (minRelevance : Option ℚ) : Except String (List SearchResult) :=
  if query = "" then .error "Search query must be a non-empty string"
  else
    match SearchResult.fromFuseResults (fuse query) with
    | .ok results =>
      .ok (match minRelevance with
           | some mr => results.filter fun r => mr ≤ (SearchResult.relevancePercent r.score : ℚ)
           | none => results)
    | .error e => .error ("Search failed: " ++ e)

/-- Embeds `SearchService.smartSearch(query, options)` (`SearchService.js` lines
130-143): empty list for a falsy query, preprocess, empty list when the
processed query is empty, otherwise delegate to the strict `search`. -/
def SearchService.smartSearch (fuse : String → List JSValue) (query : String)
    (minRelevance : Option ℚ) : Except String (List SearchResult) :=
  if query = "" then .ok []
  else
    let pq := preprocessQuery query
    if pq.length = 0 then .ok []
    else SearchService.search fuse pq minRelevance

/-- ASCII letter test, the case-insensitive `[a-z]` of the route regex. -/
def isAsciiLetter (c : Char) : Bool :=
  ('a' ≤ c && c ≤ 'z') || ('A' ≤ c && c ≤ 'Z')

/-- Decimal digit test, the `\d` of the route regex. -/
def isAsciiDigit (c : Char) : Bool := '0' ≤ c && c ≤ '9'

/-- Case-insensitive comparison of one char against a lowercase literal. -/
def lcIs (c target : Char) : Bool := Char.toLower c = target

/-- Matcher for the `\/product\/\d+` part of the route regex (under the
`i` flag, so `product` is case-insensitive); the regex is unanchored at
the end, so only the first digit is required. -/
def matchProductTail : List Char → Bool
  | s0 :: c1 :: c2 :: c3 :: c4 :: c5 :: c6 :: c7 :: s1 :: d0 :: _ =>
    s0 = '/' && lcIs c1 'p' && lcIs c2 'r' && lcIs c3 'o' && lcIs c4 'd' &&
      lcIs c5 'u' && lcIs c6 'c' && lcIs c7 't' && s1 = '/' && isAsciiDigit d0
  | _ => false

/-- The optional `(-[a-z]{2})?` group followed by the product tail: when
a `-` follows the two-letter code, the group either matches two letters
or the whole pattern fails, because the empty alternative would need a
`/` where the `-` stands; with any other next character only the empty
alternative can apply. -/
def matchRegionOrProduct : List Char → Bool
  | h :: c :: d :: rest2 =>
    if h = '-' then
      if isAsciiLetter c && isAsciiLetter d then matchProductTail rest2 else false
    else matchProductTail (h :: c :: d :: rest2)
  | other => matchProductTail other

/-- Deterministic matcher equivalent to the regex
`^\/[a-z]{2}(-[a-z]{2})?\/product\/\d+` with the `i` flag
(`src/src/models/TranslationEntry.js`, `PageContext.isProductPage`). -/
def matchLangRoute : List Char → Bool
  | s0 :: a :: b :: rest =>
    s0 = '/' && isAsciiLetter a && isAsciiLetter b && matchRegionOrProduct rest
  | _ => false

/-- Embeds `PageContext.isProductPage(pathname)` (`TranslationEntry.js` lines
213-221): falsy pathnames are rejected, then the regex test. -/
def PageContext.isProductPage (pathname : String) : Bool :=
  if pathname = "" then false
  else matchLangRoute pathname.data

/-- Shape of the `{lang}` segment described by the specification: a
2-letter code optionally followed by a hyphen and a 2-letter region. -/
def LangSegShape (lang : List Char) : Prop :=
  (∃ a b, lang = [a, b] ∧ isAsciiLetter a = true ∧ isAsciiLetter b = true) ∨
  (∃ a b c d, lang = [a, b, '-', c, d] ∧ isAsciiLetter a = true ∧
    isAsciiLetter b = true ∧ isAsciiLetter c = true ∧ isAsciiLetter d = true)

/-- Route shape stated by the specification's words: a slash, a language
segment, `/product/` (case-insensitive), one or more decimal digits, then
arbitrary trailing content. -/
def DetailRoutePattern (pathname : String) : Prop :=
  ∃ (lang prod ds rest : List Char),
    LangSegShape lang ∧
    prod.map Char.toLower = "product".data ∧
    ds ≠ [] ∧ (∀ c ∈ ds, isAsciiDigit c = true) ∧
    pathname.data = '/' :: (lang ++ '/' :: (prod ++ '/' :: (ds ++ rest)))

/-- The `PageContext` data as consumed by `DataExtractionService`
(`src/src/services/PageContextService.js`). -/
structure PageCtx : Type where
  domain : String
  pathname : String
  isKKdayDomain : Bool
  isProductPage : Bool
  language : String
deriving DecidableEq

/-- Embeds `PageContext.getDataSourceStrategy()` (`TranslationEntry.js` lines
243-249): throws off the KKday domain, otherwise picks the strategy from
the page type. -/
def PageCtx.getDataSourceStrategy (ctx : PageCtx) : Except String String :=
  if ctx.isKKdayDomain = false then .error "Cannot determine data source for non-KKday domain"
  else .ok (if ctx.isProductPage then "nuxt" else "init_state")

/-- Property access that models the JS `TypeError` on reading from
`null`; every other non-object base boxes and yields `undefined`. -/
def getPropE (v : JSValue) (name : String) : Except String (Option JSValue) :=
  match v with
  | .null => .error ("Cannot read properties of null (reading " ++ name ++ ")")
  | .obj props => .ok (props.lookup name)
  | _ => .ok none

/-- Embeds `DataExtractionService.extractFromNuxt(pageContext, globalScope)`
(`PageContextService.js` lines 307-330): default the language to
`zh-tw` when falsy, then walk `__NUXT__.state[$si18n_lang]`, throwing a
descriptive error at each absent link. -/
def DataExtractionService.extractFromNuxt (ctx : PageCtx) (scope : JSValue) :
    Except String (JSValue × String) := do
  let language := if ctx.language = "" then "zh-tw" else ctx.language
  let i18nKey := "$si18n_" ++ language
  let path := "__NUXT__.state[" ++ i18nKey ++ "]"
  let nuxtOpt ← getPropE scope "__NUXT__"
  if jsTruthyO nuxtOpt = false then throw "__NUXT__ global variable not found"
  else
    let nuxt := nuxtOpt.getD .null
    let stateOpt ← getPropE nuxt "state"
    if jsTruthyO stateOpt = false then throw "__NUXT__.state not found"
    else
      let state := stateOpt.getD .null
      let dataOpt ← getPropE state i18nKey
      if jsTruthyO dataOpt = false then throw ("Translation data not found at " ++ path)
      else pure (dataOpt.getD .null, path)

/-- Embeds `DataExtractionService.extractFromInitState(globalScope)`
(`PageContextService.js` lines 337-354). -/
def DataExtractionService.extractFromInitState (scope : JSValue) :
    Except String (JSValue × String) := do
  let path := "__INIT_STATE__.lang"
  let stObj ← getPropE scope "__INIT_STATE__"
  if jsTruthyO stObj = false then throw "__INIT_STATE__ global variable not found"
  else
    let st := stObj.getD .null
    let langOpt ← getPropE st "lang"
    if jsTruthyO langOpt = false then throw ("Translation data not found at " ++ path)
    else pure (langOpt.getD .null, path)

/-- One step of `convertToTranslationEntries`'s loop: keep string values
with non-whitespace content; the `TranslationEntry` constructor throw on
an empty key is caught and skips the entry. -/
def convStep (kv : String × JSValue) : Option TranslationEntry :=
  match kv with
  | (k, .str s) =>
    if jsTrim s = "" then none
    else if k = "" then none
    else some ⟨k, s⟩
  | _ => none

/-- Embeds `DataExtractionService.convertToTranslationEntries(rawData)`
(`PageContextService.js` lines 361-382): non-objects yield the empty
list; `Object.entries` over an array enumerates its indices. -/
def DataExtractionService.convertToTranslationEntries (rawData : JSValue) :
    List TranslationEntry :=
  match rawData with
  | .obj props => props.filterMap convStep
  | .arr items => (indexedProps items).filterMap convStep
  | _ => []

/-- Structured outcome of `extractTranslationData`: the success object or
the `{success: false, error}` object. -/
inductive ExtractResult : Type
  | success (data : List TranslationEntry) (dataSource : String) (strategy : String)
      (count : ℕ)
  | failure (error : String)
deriving DecidableEq

/-- The common tail of `extractTranslationData`'s `try` block: the
falsy-data guard, the conversion, the empty-conversion guard and the
success object. -/
def finishExtract (rawData : JSValue) (path strategy : String) : ExtractResult :=
  if jsTruthy rawData = false then .failure "No translation data found in global variables"
  else if (DataExtractionService.convertToTranslationEntries rawData).length = 0 then
    .failure "No valid translation entries found"
  else
    .success (DataExtractionService.convertToTranslationEntries rawData) path strategy
      (DataExtractionService.convertToTranslationEntries rawData).length

/-- The `try` block of `extractTranslationData` (`PageContextService.js`
lines 248-292); an `.error` is an exception to be caught by its
`catch`. -/
def extractTryBlock (ctx : PageCtx) (scope : JSValue) : Except String ExtractResult :=
  match ctx.getDataSourceStrategy with
  | .error e => .error e
  | .ok strategy =>
    if strategy = "nuxt" then
      match DataExtractionService.extractFromNuxt ctx scope with
      | .error e => .error e
      | .ok rp => .ok (finishExtract rp.1 rp.2 strategy)
    else if strategy = "init_state" then
      match DataExtractionService.extractFromInitState scope with
      | .error e => .error e
      | .ok rp => .ok (finishExtract rp.1 rp.2 strategy)
    else .ok (.failure ("Unknown extraction strategy: " ++ strategy))

/-- Embeds `DataExtractionService.extractTranslationData(pageContext, globalScope)`
(`PageContextService.js` lines 233-299).  The result is wrapped in
`Except` so that `.error` marks an uncaught exception escaping to the
caller; the source catches everything, so the definition only ever
produces `.ok`. -/
def DataExtractionService.extractTranslationData (ctx : PageCtx) (scope : JSValue) :
    Except String ExtractResult :=
  if ctx.isKKdayDomain = false then .ok (.failure "Cannot extract data from non-KKday domain")
  else
    match extractTryBlock ctx scope with
    | .ok r => .ok r
    | .error e => .ok (.failure ("Data extraction failed: " ++ e))

/-- Claim C8's well-formedness of an outcome: failures carry a non-empty
reason, successes carry a consistent non-empty entry list. -/
def WellFormedOutcome : ExtractResult → Prop
  | .failure e => e ≠ ""
  | .success data _ _ count => count = data.length ∧ data ≠ []

/-- The content script's `!this.translationData || this.translationData.length === 0`
emptiness test on the cached data (`none` models the initial
`undefined`). -/
def tdEmpty : Option (List KVRecord) → Bool
  | none => true
  | some l => l.isEmpty

/-- Effect of one `I18N_KEY_FINDER_DATA` window message on the cache
(`service-worker.js` lines 459-473, `listenForPageData`): whenever the
message carries truthy data the cache is overwritten unconditionally. -/
def applyPageDataMessage (td : Option (List KVRecord)) (d : JSValue) :
    Option (List KVRecord) :=
  if jsTruthy d then some (flattenTranslationData d "") else td

/-- Effect of one run of the content script's own `extractTranslationData`
on the cache (`service-worker.js` lines 620-637): `data` is what the six
probe methods produced (`null` when nothing was found); a populated cache
is never written to. -/
def applyExtractPass (td : Option (List KVRecord)) (data : JSValue) :
    Option (List KVRecord) :=
  if jsTruthy data then
    if tdEmpty td then some (flattenTranslationData data "") else td
  else
    if tdEmpty td then some [] else td

/-- Values rejected by `fromFuseResult`'s first guard
(`!fuseResult || typeof fuseResult !== 'object'`): everything that is not
a (truthy) object; JS `typeof` counts arrays as objects. -/
def nonObjectV : JSValue → Bool
  | .obj _ => false
  | .arr _ => false
  | _ => true

theorem startsList_refl (l : List Char) : startsList l l = true := by
  induction l with
  | nil => rfl
  | cons a t ih => simp [startsList, ih]

theorem incList_self (l : List Char) : incList l l = true := by
  cases l with
  | nil => rfl
  | cons a t => simp [incList, startsList_refl]

theorem jsIncludes_self (s : String) : jsIncludes s s = true := by
  simp [jsIncludes, incList_self]

theorem string_append_ne_empty (a e : String) (h : a ≠ "") : a ++ e ≠ "" := by
  obtain ⟨la⟩ := a
  obtain ⟨le⟩ := e
  intro hc
  apply h
  have hd : la ++ le = ([] : List Char) := congrArg String.data hc
  rcases List.append_eq_nil.mp hd with ⟨h1, _⟩
  exact congrArg String.mk h1

/-- C3 counterexample: the claim says no flattener record ever carries an
empty string value, but `flattenTranslationData` pushes a record for
every string-valued property with no emptiness check, so flattening
`{a: ""}` yields a record whose value is the empty string. -/
theorem flatten_emits_empty_value :
    flattenTranslationData (.obj [("a", .str "")]) "" = [⟨"a", ""⟩] ∧
    ∃ r ∈ flattenTranslationData (.obj [("a", .str "")]) "", r.val = "" := by
  constructor
  · simp [flattenTranslationData, flattenProps, joinKey]
  · exact ⟨⟨"a", ""⟩, by simp [flattenTranslationData, flattenProps, joinKey], rfl⟩

/-- C3 amended: `flattenTranslationData` emits records for empty string
values as well; the layer that drops empty (indeed whitespace-only)
values is `DataExtractionService.convertToTranslationEntries`, whose
output only ever contains entries with non-whitespace values and
non-empty keys. -/
theorem convert_drops_empty_values (raw : JSValue) (e : TranslationEntry)
    (h : e ∈ DataExtractionService.convertToTranslationEntries raw) :
    jsTrim e.val ≠ "" ∧ e.val ≠ "" ∧ e.key ≠ "" := by
  have hstep : ∀ (kv : String × JSValue), convStep kv = some e →
      jsTrim e.val ≠ "" ∧ e.val ≠ "" ∧ e.key ≠ "" := by
    rintro ⟨k, v⟩ hc
    rcases v with s | q | b | _ | _ | items | props
    · simp only [convStep] at hc
      split at hc
      · exact absurd hc (by simp)
      · split at hc
        · exact absurd hc (by simp)
        · rename_i hs hk
          cases Option.some.inj hc
          refine ⟨hs, ?_, hk⟩
          intro h0
          have h1 : s = "" := h0
          rw [h1] at hs
          exact hs rfl
    · simp [convStep] at hc
    · simp [convStep] at hc
    · simp [convStep] at hc
    · simp [convStep] at hc
    · simp [convStep] at hc
    · simp [convStep] at hc
  rcases raw with _ | _ | _ | _ | _ | items | props
  · simp [DataExtractionService.convertToTranslationEntries] at h
  · simp [DataExtractionService.convertToTranslationEntries] at h
  · simp [DataExtractionService.convertToTranslationEntries] at h
  · simp [DataExtractionService.convertToTranslationEntries] at h
  · simp [DataExtractionService.convertToTranslationEntries] at h
  · rw [DataExtractionService.convertToTranslationEntries] at h
    rcases List.mem_filterMap.mp h with ⟨kv, _, hc⟩
    exact hstep kv hc
  · rw [DataExtractionService.convertToTranslationEntries] at h
    rcases List.mem_filterMap.mp h with ⟨kv, _, hc⟩
    exact hstep kv hc

/-- C3 amended witness: instantiation at the single-entry object
`{k: "v"}`. -/
theorem convert_drops_empty_values_witness :
    jsTrim (TranslationEntry.mk "k" "v").val ≠ "" ∧
    (TranslationEntry.mk "k" "v").val ≠ "" ∧ (TranslationEntry.mk "k" "v").key ≠ "" :=
  convert_drops_empty_values (.obj [("k", .str "v")]) ⟨"k", "v"⟩ (by
    simp [DataExtractionService.convertToTranslationEntries, convStep, jsTrim, trimList,
      isJsWs])

/-- C4: `flattenTranslationData` emits one dotted-path record per string
leaf reached through plain objects (`{a: {b: "x"}}` gives exactly the
record `a.b`), skips numbers, booleans, `null`, functions and arrays
without recursing or emitting, and emits in the object's own enumeration
order (string leaves prepend their record before the records of the
remaining properties, object values contribute their whole recursive
output in place). -/
theorem flatten_structure :
    (flattenTranslationData (.obj [("a", .obj [("b", .str "x")])]) "" = [⟨"a.b", "x"⟩]) ∧
    (flattenTranslationData
        (.obj [("a", .str "x"), ("b", .num 5), ("c", .obj []), ("d", .null), ("e", .func)])
        "" = [⟨"a", "x"⟩]) ∧
    (∀ (key : String) (v : JSValue) (t : List (String × JSValue)) (curPre : String),
      skipsValue v = true → flattenProps ((key, v) :: t) curPre = flattenProps t curPre) ∧
    (∀ (key s : String) (t : List (String × JSValue)) (curPre : String),
      flattenProps ((key, .str s) :: t) curPre =
        ⟨joinKey curPre key, s⟩ :: flattenProps t curPre) ∧
    (∀ (key : String) (inner : List (String × JSValue)) (t : List (String × JSValue))
        (curPre : String),
      flattenProps ((key, .obj inner) :: t) curPre =
        flattenProps inner (joinKey curPre key) ++ flattenProps t curPre) := by
  refine ⟨?_, ?_, ?_, ?_, ?_⟩
  · simp [flattenTranslationData, flattenProps, joinKey]
  · simp [flattenTranslationData, flattenProps, joinKey]
  · intro key v t curPre hv
    cases v <;> simp_all [flattenProps, skipsValue]
  · intro key s t curPre
    simp [flattenProps]
  · intro key inner t curPre
    simp [flattenProps]

/-- C4 witness: the skip equation applied to a number-valued property. -/
theorem flatten_structure_witness :
    flattenProps [("n", JSValue.num 1), ("a", JSValue.str "x")] "" =
      flattenProps [("a", JSValue.str "x")] "" :=
  flatten_structure.2.2.1 "n" (.num 1) [("a", JSValue.str "x")] "" (by rfl)

/-- C5 counterexample: the claim says the flattening/sanitization walk
stops once nesting exceeds depth 10, but `flattenTranslationData` has no
depth bound: flattening an object nested 12 levels deep still emits the
depth-12 leaf instead of skipping the subtree. -/
theorem flatten_descends_past_depth_ten :
    flattenTranslationData (nestObj 12) "" = [⟨"a.a.a.a.a.a.a.a.a.a.a.a", "x"⟩] ∧
    flattenTranslationData (nestObj 12) "" ≠ [] := by
  constructor
  · simp [nestObj, flattenTranslationData, flattenProps, joinKey]
  · simp [nestObj, flattenTranslationData, flattenProps, joinKey]

/-- C5 amended: only `sanitizeData` (page script) is depth-bounded: past
the configurable bound (default 10) it returns `null` and the caller
silently drops the subtree, as the depth-12 example shows; the
`flattenTranslationData` walk has no depth bound and reaches the depth-12
leaf.  Both walks are total Lean functions, so they terminate on inputs
of any nesting depth. -/
theorem depth_bound_amended :
    (∀ (v : JSValue) (maxDepth currentDepth : ℕ), maxDepth < currentDepth →
      sanitizeData v maxDepth currentDepth = .null) ∧
    (sanitizeData (nestObj 12) 10 0 = truncObj 10) ∧
    (flattenTranslationData (nestObj 12) "" = [⟨"a.a.a.a.a.a.a.a.a.a.a.a", "x"⟩]) := by
  refine ⟨?_, ?_, ?_⟩
  · intro v maxDepth currentDepth h
    rw [sanitizeData.eq_def, if_pos (show currentDepth > maxDepth from h)]
  · simp [nestObj, truncObj, sanitizeData, sanitizeProps, isNullV]
  · simp [nestObj, flattenTranslationData, flattenProps, joinKey]

/-- C5 amended witness: the depth guard applied to a leaf one step past
the bound. -/
theorem depth_bound_amended_witness :
    sanitizeData (JSValue.str "x") 10 11 = JSValue.null :=
  depth_bound_amended.1 (JSValue.str "x") 10 11 (by decide)

/-- C9 counterexample: the claim says a populated cache is never replaced
by an empty result whatever the completion order, but the window-message
handler overwrites unconditionally: after the delayed pass caches one
record, an immediate-pass message whose truthy payload flattens to the
empty list resets the cache to `some []`. -/
theorem cache_overwritten_by_empty :
    applyPageDataMessage (applyPageDataMessage none
        (.obj [("greeting", .obj [("hello", .str "Hi")])]))
      (.obj [("n", .num 1)]) = some [] ∧
    applyPageDataMessage none (.obj [("greeting", .obj [("hello", .str "Hi")])]) =
      some [⟨"greeting.hello", "Hi"⟩] := by
  constructor
  · simp [applyPageDataMessage, jsTruthy, flattenTranslationData, flattenProps, joinKey]
  · simp [applyPageDataMessage, jsTruthy, flattenTranslationData, flattenProps, joinKey]

/-- C9 amended: the content script's own extraction pass never writes to
a populated cache (so it cannot regress it to empty), and a page-data
message leaves the cache alone when its payload is falsy; but a message
with truthy data overwrites the cache unconditionally with the flattened
payload, which is how a populated cache can be replaced by an empty
list. -/
theorem cache_policy :
    (∀ (td : Option (List KVRecord)) (data : JSValue),
      tdEmpty td = false → applyExtractPass td data = td) ∧
    (∀ (td : Option (List KVRecord)) (d : JSValue),
      jsTruthy d = false → applyPageDataMessage td d = td) ∧
    (∀ (td : Option (List KVRecord)) (d : JSValue),
      jsTruthy d = true →
        applyPageDataMessage td d = some (flattenTranslationData d "")) := by
  refine ⟨?_, ?_, ?_⟩
  · intro td data h
    simp [applyExtractPass, h]
  · intro td d h
    simp [applyPageDataMessage, h]
  · intro td d h
    simp [applyPageDataMessage, h]

/-- C9 amended witness: a populated cache survives an extraction pass
that found nothing, and a falsy message payload. -/
theorem cache_policy_witness :
    applyExtractPass (some [⟨"k", "v"⟩]) .null = some [⟨"k", "v"⟩] ∧
    applyPageDataMessage (some [⟨"k", "v"⟩]) .null = some [⟨"k", "v"⟩] ∧
    applyPageDataMessage (some [⟨"k", "v"⟩]) (.obj [("a", .str "x")]) =
      some (flattenTranslationData (.obj [("a", .str "x")]) "") :=
  ⟨cache_policy.1 (some [⟨"k", "v"⟩]) .null (by decide),
   cache_policy.2.1 (some [⟨"k", "v"⟩]) .null (by decide),
   cache_policy.2.2 (some [⟨"k", "v"⟩]) (.obj [("a", .str "x")]) (by decide)⟩

/-- C10 counterexample: the claim says `fromFuseResult` throws only when
the argument is not an object or lacks the `item` property; but on
`{item: {}}` — an object with an `item` property and no score — it
propagates the `TranslationEntry` validation throw instead of returning a
score-0 result. -/
theorem fromFuseResult_item_validation_throw :
    SearchResult.fromFuseResult (.obj [("item", .obj [])]) =
      .error "TranslationEntry key must be a non-empty string" := by rfl

/-- C10 amended: when the object's `item` converts to a valid
`TranslationEntry`, a missing or non-numeric `score` and `refIndex`
default to `0` (and score `0` is classified `perfect`); it errors on
non-objects, on a missing or falsy `item`, and it also propagates
`TranslationEntry`/`SearchResult` validation throws such as the one in
the counterexample. -/
theorem fromFuseResult_defaults :
    (∀ (props : List (String × JSValue)) (itemV : JSValue) (entry : TranslationEntry),
      props.lookup "item" = some itemV →
      TranslationEntry.fromObject itemV = .ok entry →
      numOf (props.lookup "score") = none →
      numOf (props.lookup "refIndex") = none →
        SearchResult.fromFuseResult (.obj props) = .ok ⟨entry, 0, 0⟩) ∧
    SearchResult.getConfidenceLevel 0 = "perfect" ∧
    (∀ v : JSValue, nonObjectV v = true →
      SearchResult.fromFuseResult v =
        .error "Invalid Fuse result provided to SearchResult.fromFuseResult") ∧
    (∀ props : List (String × JSValue), jsTruthyO (props.lookup "item") = false →
      SearchResult.fromFuseResult (.obj props) =
        .error "Fuse result must contain an item property") := by
  refine ⟨?_, by rfl, ?_, ?_⟩
  · intro props itemV entry h1 h2 h3 h4
    have htr : jsTruthy itemV = true := by
      cases itemV <;> first | rfl | simp [TranslationEntry.fromObject] at h2
    simp only [SearchResult.fromFuseResult, getProp, h1, htr, h2, h3, h4,
      Bool.true_eq_false, if_false, Option.getD]
    simp [mkSearchResult, h2]
    rfl
  · intro v hv
    cases v <;> simp_all [SearchResult.fromFuseResult, nonObjectV]
  · intro props h
    cases hl : props.lookup "item" with
    | none => simp [SearchResult.fromFuseResult, getProp, hl]
    | some x =>
      rw [hl] at h
      simp only [jsTruthyO] at h
      simp [SearchResult.fromFuseResult, getProp, hl, h]

/-- C10 amended witness: a fuse result with a valid item and no score or
refIndex yields the score-0, refIndex-0 result. -/
theorem fromFuseResult_defaults_witness :
    SearchResult.fromFuseResult
        (.obj [("item", .obj [("key", .str "k"), ("val", .str "v")])]) =
      .ok ⟨⟨"k", "v"⟩, 0, 0⟩ :=
  fromFuseResult_defaults.1 [("item", .obj [("key", .str "k"), ("val", .str "v")])]
    (.obj [("key", .str "k"), ("val", .str "v")]) ⟨"k", "v"⟩ rfl rfl rfl rfl

/-- C7 counterexample: the claim says the strict `search` rejects
whitespace-only queries, but its guard is only the falsy check
`!query`: a single-space query is passed straight to the engine — here an
empty-index Fuse oracle — and returns normally instead of throwing. -/
theorem search_accepts_whitespace_query :
    SearchService.search (fun _ => []) " " none = .ok [] ∧
    ∀ e, SearchService.search (fun _ => []) " " none ≠ .error e := by
  refine ⟨rfl, fun e h => ?_⟩
  rw [show SearchService.search (fun _ => []) " " none = .ok [] from rfl] at h
  exact Except.noConfusion h

/-- C7 amended: the strict `search` throws its descriptive error exactly
on the empty (falsy) query — whitespace-only queries are not rejected and
go to the engine — while the forgiving `smartSearch` returns the empty
list both for the empty query and for any query that is whitespace-only
after trimming. -/
theorem search_entry_points :
    (∀ (fuse : String → List JSValue) (mr : Option ℚ),
      SearchService.search fuse "" mr = .error "Search query must be a non-empty string") ∧
    (∀ (fuse : String → List JSValue) (mr : Option ℚ),
      SearchService.smartSearch fuse "" mr = .ok []) ∧
    (∀ (fuse : String → List JSValue) (mr : Option ℚ) (q : String),
      jsTrim q = "" → SearchService.smartSearch fuse q mr = .ok []) := by
  refine ⟨fun fuse mr => rfl, fun fuse mr => rfl, fun fuse mr q h => ?_⟩
  by_cases hq : q = ""
  · subst hq
    rfl
  · have hp : preprocessQuery q = "" := by
      rw [preprocessQuery, h]
      rfl
    simp [SearchService.smartSearch, hq, hp]

/-- C7 amended witness: instantiation at an empty-index engine and the
single-space query. -/
theorem search_entry_points_witness :
    SearchService.search (fun _ => []) "" none =
      .error "Search query must be a non-empty string" ∧
    SearchService.smartSearch (fun _ => []) "" none = .ok [] ∧
    SearchService.smartSearch (fun _ => []) " " none = .ok [] :=
  ⟨search_entry_points.1 (fun _ => []) none,
   search_entry_points.2.1 (fun _ => []) none,
   search_entry_points.2.2 (fun _ => []) none " " (by rfl)⟩

theorem finishExtract_wf (raw : JSValue) (path strategy : String) :
    WellFormedOutcome (finishExtract raw path strategy) := by
  unfold finishExtract
  split
  · simp only [WellFormedOutcome]
    decide
  · split
    · simp only [WellFormedOutcome]
      decide
    · rename_i hlen
      simp only [WellFormedOutcome]
      exact ⟨by trivial, fun hnil => hlen (by rw [hnil]; rfl)⟩

theorem extractTryBlock_ok_wf (ctx : PageCtx) (scope : JSValue) (r : ExtractResult)
    (h : extractTryBlock ctx scope = .ok r) : WellFormedOutcome r := by
  unfold extractTryBlock at h
  split at h
  · exact absurd h (by simp)
  · rename_i strategy hstrat
    split at h
    · split at h
      · exact absurd h (by simp)
      · rename_i rp _
        cases Except.ok.inj h
        exact finishExtract_wf rp.1 rp.2 strategy
    · split at h
      · split at h
        · exact absurd h (by simp)
        · rename_i rp _
          cases Except.ok.inj h
          exact finishExtract_wf rp.1 rp.2 strategy
      · cases Except.ok.inj h
        simp only [WellFormedOutcome]
        exact string_append_ne_empty _ _ (by decide)

/-- C8: `DataExtractionService.extractTranslationData` never lets an
exception escape — every validation failure, absent global variable,
malformed state shape (including property reads on `null`, surfaced by
`getPropE` as thrown `TypeError`s) and empty conversion is caught and
returned as a structured failure with a non-empty human-readable reason,
and every success carries a consistent non-empty entry list. -/
theorem extraction_never_throws (ctx : PageCtx) (scope : JSValue) :
    ∃ r, DataExtractionService.extractTranslationData ctx scope = .ok r ∧
      WellFormedOutcome r := by
  unfold DataExtractionService.extractTranslationData
  by_cases hk : ctx.isKKdayDomain = false
  · rw [if_pos hk]
    refine ⟨_, rfl, ?_⟩
    simp only [WellFormedOutcome]
    decide
  · rw [if_neg hk]
    cases ht : extractTryBlock ctx scope with
    | ok r => exact ⟨r, rfl, extractTryBlock_ok_wf ctx scope r ht⟩
    | error e =>
      refine ⟨_, rfl, ?_⟩
      simp only [WellFormedOutcome]
      exact string_append_ne_empty _ _ (by decide)

theorem jsIncludes_of_starts (s sub : String) (h : jsStartsWith s sub = true) :
    jsIncludes s sub = true := by
  unfold jsStartsWith at h
  unfold jsIncludes incList
  rw [h]
  rfl

/-- C1 counterexample: the claim says an exact case-insensitive match is
scored `0.0`, but the popup's tiered scorer gives exact matches the score
`1.0` (its scale is higher-is-better): searching `[{key: "k", val:
"Hello"}]` for `"hello"` returns that record with score `1`, not `0`. -/
theorem popup_exact_match_scores_one :
    popupSearch [⟨"k", "Hello"⟩] "hello" none = [⟨⟨"k", "Hello"⟩, 1⟩] ∧
    (1 : ℚ) ≠ 0 := by
  constructor
  · decide
  · norm_num

/-- C1 amended: the popup's tiered search scores on a higher-is-better
scale — `1.0` when key or value case-insensitively equals the normalized
query, `0.8` when one of them starts with it, `0.6` when it is a
substring of both, `0.4` when it is a substring of exactly one — and a
candidate containing the query in neither field is scored `null` and
excluded from the returned results. -/
theorem popup_tiered_scoring :
    (∀ (item : KVRecord) (nq : String),
      (jsToLower item.key = nq ∨ jsToLower item.val = nq) →
        scoreItem nq item = some ⟨item, 1⟩) ∧
    (∀ (item : KVRecord) (nq : String),
      ¬(jsToLower item.key = nq ∨ jsToLower item.val = nq) →
      (jsStartsWith (jsToLower item.key) nq = true ∨
        jsStartsWith (jsToLower item.val) nq = true) →
        scoreItem nq item = some ⟨item, q08⟩) ∧
    (∀ (item : KVRecord) (nq : String),
      ¬(jsToLower item.key = nq ∨ jsToLower item.val = nq) →
      ¬(jsStartsWith (jsToLower item.key) nq = true ∨
        jsStartsWith (jsToLower item.val) nq = true) →
      jsIncludes (jsToLower item.key) nq = true →
      jsIncludes (jsToLower item.val) nq = true →
        scoreItem nq item = some ⟨item, q06⟩) ∧
    (∀ (item : KVRecord) (nq : String),
      ¬(jsToLower item.key = nq ∨ jsToLower item.val = nq) →
      ¬(jsStartsWith (jsToLower item.key) nq = true ∨
        jsStartsWith (jsToLower item.val) nq = true) →
      ((jsIncludes (jsToLower item.key) nq = true ∧
          jsIncludes (jsToLower item.val) nq = false) ∨
        (jsIncludes (jsToLower item.key) nq = false ∧
          jsIncludes (jsToLower item.val) nq = true)) →
        scoreItem nq item = some ⟨item, q04⟩) ∧
    (∀ (item : KVRecord) (nq : String),
      jsIncludes (jsToLower item.key) nq = false →
      jsIncludes (jsToLower item.val) nq = false →
        scoreItem nq item = none) ∧
    (∀ (translations : List KVRecord) (query : String) (limitOpt : Option ℕ)
        (item : KVRecord) (s : ℚ),
      jsIncludes (jsToLower item.key) (normalizeQuery query) = false →
      jsIncludes (jsToLower item.val) (normalizeQuery query) = false →
        (⟨item, s⟩ : PopupResult) ∉ popupSearch translations query limitOpt) := by
  refine ⟨?_, ?_, ?_, ?_, ?_, ?_⟩
  · intro item nq heq
    rcases heq with h | h <;> simp [scoreItem, h, jsIncludes_self]
  · intro item nq hne hpre
    rcases not_or.mp hne with ⟨hk, hv⟩
    rcases hpre with h | h <;>
      simp [scoreItem, jsIncludes_of_starts _ _ h, h, hk, hv]
  · intro item nq hne hnpre hkm hvm
    rcases not_or.mp hne with ⟨hk, hv⟩
    rcases not_or.mp hnpre with ⟨hp1, hp2⟩
    rw [Bool.not_eq_true] at hp1 hp2
    simp [scoreItem, hkm, hvm, hk, hv, hp1, hp2]
  · intro item nq hne hnpre hone
    rcases not_or.mp hne with ⟨hk, hv⟩
    rcases not_or.mp hnpre with ⟨hp1, hp2⟩
    rw [Bool.not_eq_true] at hp1 hp2
    rcases hone with ⟨h1, h2⟩ | ⟨h1, h2⟩ <;>
      simp [scoreItem, h1, h2, hk, hv, hp1, hp2]
  · intro item nq hkm hvm
    simp [scoreItem, hkm, hvm]
  · intro ts q lim item s hkm hvm hmem
    unfold popupSearch at hmem
    by_cases hq : q = ""
    · simp [hq] at hmem
    · rw [if_neg hq] at hmem
      have h1 := (List.take_sublist _ _).subset hmem
      have h2 := (List.perm_insertionSort popupDesc _).mem_iff.mp h1
      rcases List.mem_filterMap.mp h2 with ⟨a, _, ha⟩
      simp only [scoreItem] at ha
      split at ha
      · exact absurd ha (by simp)
      · rename_i hcond
        simp only [Option.some.injEq, PopupResult.mk.injEq] at ha
        rw [ha.1] at hcond
        exact hcond (by simp [hkm, hvm])

/-- C1 amended witness: one concrete candidate per tier, plus the
exclusion of a non-matching candidate from a search run. -/
theorem popup_tiered_scoring_witness :
    scoreItem "hello" ⟨"k", "Hello"⟩ = some ⟨⟨"k", "Hello"⟩, 1⟩ ∧
    scoreItem "he" ⟨"k", "hello"⟩ = some ⟨⟨"k", "hello"⟩, q08⟩ ∧
    scoreItem "ell" ⟨"bell", "hello"⟩ = some ⟨⟨"bell", "hello"⟩, q06⟩ ∧
    scoreItem "ell" ⟨"k", "hello"⟩ = some ⟨⟨"k", "hello"⟩, q04⟩ ∧
    scoreItem "zz" ⟨"k", "hello"⟩ = none ∧
    (⟨⟨"k", "hello"⟩, q06⟩ : PopupResult) ∉ popupSearch [⟨"k", "hello"⟩] "zz" none :=
  ⟨popup_tiered_scoring.1 ⟨"k", "Hello"⟩ "hello" (by right; decide),
   popup_tiered_scoring.2.1 ⟨"k", "hello"⟩ "he" (by decide) (by right; decide),
   popup_tiered_scoring.2.2.1 ⟨"bell", "hello"⟩ "ell" (by decide) (by decide)
     (by decide) (by decide),
   popup_tiered_scoring.2.2.2.1 ⟨"k", "hello"⟩ "ell" (by decide) (by decide)
     (by right; exact ⟨by decide, by decide⟩),
   popup_tiered_scoring.2.2.2.2.1 ⟨"k", "hello"⟩ "zz" (by decide) (by decide),
   popup_tiered_scoring.2.2.2.2.2 [⟨"k", "hello"⟩] "zz" none ⟨"k", "hello"⟩ q06
     (by decide) (by decide)⟩

/-- C2 counterexample: the claim says results are sorted ascending by
score, but the popup search sorts descending (its scores are
higher-is-better): an exact match (score `1`) precedes a prefix match
(score `0.8`), so `results[0].score <= results[1].score` fails. -/
theorem popup_results_descend :
    popupSearch [⟨"x2", "hello"⟩, ⟨"x1", "he"⟩] "he" none =
      [⟨⟨"x1", "he"⟩, 1⟩, ⟨⟨"x2", "hello"⟩, q08⟩] ∧
    ¬((1 : ℚ) ≤ q08) := by
  constructor
  · decide
  · decide

/-- C2 amended: the popup's in-line search returns its results sorted
descending by its higher-is-better score, while the
`SearchResult.sortByScore` helper sorts ascending by the Fuse-style
lower-is-better score. -/
theorem result_ordering :
    (∀ (translations : List KVRecord) (query : String) (limitOpt : Option ℕ),
      (popupSearch translations query limitOpt).Pairwise
        (fun a b => b.score ≤ a.score)) ∧
    (∀ results : List SearchResult,
      (SearchResult.sortByScore results).Pairwise (fun a b => a.score ≤ b.score)) := by
  constructor
  · intro ts q lim
    unfold popupSearch
    by_cases hq : q = ""
    · simp [hq]
    · rw [if_neg hq]
      apply List.Pairwise.sublist (List.take_sublist _ _)
      haveI : IsTotal PopupResult popupDesc := ⟨fun a b => le_total b.score a.score⟩
      haveI : IsTrans PopupResult popupDesc := ⟨fun a b c h1 h2 => le_trans h2 h1⟩
      exact List.sorted_insertionSort popupDesc _
  · intro rs
    unfold SearchResult.sortByScore
    haveI : IsTotal SearchResult (fun a b => a.score ≤ b.score) :=
      ⟨fun a b => le_total a.score b.score⟩
    haveI : IsTrans SearchResult (fun a b => a.score ≤ b.score) :=
      ⟨fun a b c h1 h2 => le_trans h1 h2⟩
    exact List.sorted_insertionSort _ rs

theorem matchProductTail_pattern (cs : List Char) (h : matchProductTail cs = true) :
    ∃ (prod : List Char) (d0 : Char) (rest : List Char),
      prod.map Char.toLower = "product".data ∧ isAsciiDigit d0 = true ∧
      cs = '/' :: (prod ++ '/' :: (d0 :: rest)) := by
  unfold matchProductTail at h
  split at h
  · rename_i s0 c1 c2 c3 c4 c5 c6 c7 s1 d0 tail
    simp only [Bool.and_eq_true, decide_eq_true_eq, lcIs] at h
    obtain ⟨⟨⟨⟨⟨⟨⟨⟨⟨hs0, h1⟩, h2⟩, h3⟩, h4⟩, h5⟩, h6⟩, h7⟩, hs1⟩, hd⟩ := h
    subst hs0
    subst hs1
    refine ⟨[c1, c2, c3, c4, c5, c6, c7], d0, tail, ?_, hd, rfl⟩
    simp only [List.map_cons, List.map_nil, h1, h2, h3, h4, h5, h6, h7]
  · simp at h

theorem matchProductTail_of (prod : List Char) (d0 : Char) (rest : List Char)
    (hp : prod.map Char.toLower = "product".data) (hd : isAsciiDigit d0 = true) :
    matchProductTail ('/' :: (prod ++ '/' :: (d0 :: rest))) = true := by
  have hp' : prod.map Char.toLower = ['p', 'r', 'o', 'd', 'u', 'c', 't'] := hp
  rcases prod with _ | ⟨p1, _ | ⟨p2, _ | ⟨p3, _ | ⟨p4, _ | ⟨p5, _ | ⟨p6, _ | ⟨p7,
    _ | ⟨p8, t⟩⟩⟩⟩⟩⟩⟩⟩ <;> simp_all [matchProductTail, lcIs]

theorem matchRegionOrProduct_pattern (rest : List Char)
    (h : matchRegionOrProduct rest = true) :
    (∃ c d rest2, rest = '-' :: c :: d :: rest2 ∧ isAsciiLetter c = true ∧
      isAsciiLetter d = true ∧ matchProductTail rest2 = true) ∨
    matchProductTail rest = true := by
  unfold matchRegionOrProduct at h
  split at h
  · rename_i h0 c d rest2
    split at h
    · rename_i hdash
      split at h
      · rename_i hcd
        subst hdash
        simp only [Bool.and_eq_true] at hcd
        exact Or.inl ⟨c, d, rest2, rfl, hcd.1, hcd.2, h⟩
      · simp at h
    · exact Or.inr h
  all_goals exact Or.inr h

theorem matchRegionOrProduct_of_slash (rest2 : List Char)
    (h : matchProductTail ('/' :: rest2) = true) :
    matchRegionOrProduct ('/' :: rest2) = true := by
  cases rest2 with
  | nil => simpa [matchRegionOrProduct] using h
  | cons c t =>
    cases t with
    | nil => simpa [matchRegionOrProduct] using h
    | cons d t2 =>
      simpa [matchRegionOrProduct, show ('/' : Char) ≠ '-' by decide] using h

/-- C6: `PageContext.isProductPage` returns `true` exactly on the
pathnames of the shape stated by the specification — a slash, a 2-letter
language code optionally followed by a hyphen and 2-letter region
(case-insensitive), then `/product/` and at least one decimal digit, with
arbitrary trailing content — and in particular accepts the spec's
positive examples while rejecting plural `products`, a non-numeric id,
and a missing language prefix. -/
theorem isProductPage_spec :
    (∀ p : String, PageContext.isProductPage p = true ↔ DetailRoutePattern p) ∧
    PageContext.isProductPage "/en/product/123" = true ∧
    PageContext.isProductPage "/zh-tw/product/45/extra" = true ∧
    PageContext.isProductPage "/en/products/123" = false ∧
    PageContext.isProductPage "/en/product/abc" = false ∧
    PageContext.isProductPage "/product/123" = false := by
  refine ⟨?_, by decide, by decide, by decide, by decide, by decide⟩
  intro p
  constructor
  · intro h
    unfold PageContext.isProductPage at h
    by_cases hp0 : p = ""
    · rw [if_pos hp0] at h
      exact absurd h (by simp)
    · rw [if_neg hp0] at h
      unfold DetailRoutePattern
      unfold matchLangRoute at h
      split at h
      · rename_i s0 a b rest heq
        simp only [Bool.and_eq_true, decide_eq_true_eq] at h
        obtain ⟨⟨⟨hs0, ha⟩, hb⟩, hrp⟩ := h
        subst hs0
        rcases matchRegionOrProduct_pattern rest hrp with
          ⟨c, d, rest2, hr, hc, hd, hm⟩ | hm
        · obtain ⟨prod, d0, rest3, hprod, hd0, hshape⟩ := matchProductTail_pattern rest2 hm
          refine ⟨[a, b, '-', c, d], prod, [d0], rest3,
            Or.inr ⟨a, b, c, d, rfl, ha, hb, hc, hd⟩, hprod, by simp,
            by simp [hd0], ?_⟩
          rw [heq, hr, hshape]
          simp
        · obtain ⟨prod, d0, rest3, hprod, hd0, hshape⟩ := matchProductTail_pattern rest hm
          refine ⟨[a, b], prod, [d0], rest3, Or.inl ⟨a, b, rfl, ha, hb⟩, hprod,
            by simp, by simp [hd0], ?_⟩
          rw [heq, hshape]
          simp
      all_goals exact absurd h (by simp)
  · rintro ⟨lang, prod, ds, rest, hL, hprod, hne, hdig, heq⟩
    have hp0 : p ≠ "" := by
      intro h0
      rw [h0] at heq
      exact absurd heq (by simp)
    unfold PageContext.isProductPage
    rw [if_neg hp0, heq]
    obtain ⟨d0, ds', rfl⟩ : ∃ d0 ds', ds = d0 :: ds' := by
      cases ds with
      | nil => exact absurd rfl hne
      | cons d0 ds' => exact ⟨d0, ds', rfl⟩
    have hd0 : isAsciiDigit d0 = true := hdig d0 (by simp)
    have hmt := matchProductTail_of prod d0 (ds' ++ rest) hprod hd0
    rcases hL with ⟨a, b, rfl, ha, hb⟩ | ⟨a, b, c, d, rfl, ha, hb, hc, hd⟩
    · simp only [List.cons_append, List.nil_append]
      simp only [matchLangRoute, Bool.and_eq_true, decide_eq_true_eq]
      refine ⟨⟨⟨by trivial, ha⟩, hb⟩, ?_⟩
      apply matchRegionOrProduct_of_slash
      simpa using hmt
    · simp only [List.cons_append, List.nil_append]
      simp only [matchLangRoute, Bool.and_eq_true, decide_eq_true_eq]
      refine ⟨⟨⟨by trivial, ha⟩, hb⟩, ?_⟩
      simp only [matchRegionOrProduct, if_true]
      rw [if_pos (by simp [hc, hd])]
      simpa using hmt

/-- C6 witness: the forward direction of the equivalence instantiated at
the canonical detail route. -/
theorem isProductPage_spec_witness : DetailRoutePattern "/en/product/123" :=
  (isProductPage_spec.1 "/en/product/123").mp (by decide)
